import Mathlib

/-!
Verification of the PRQL intermediate-representation layer (`src/ast.rs`):
the `Item` node model, the coercion/projection helpers, the `Unnest`
normalization pass built on the generic fold framework, and the
variant-mismatch error reporting.

The `Item` tree and its operations are transliterated from `src/ast.rs`.
The generic fold framework (`ast_fold.rs`) and the `only`/`into_only`
utilities (`utils.rs`) are not part of the visible source; they are
modelled from the specification, as marked on their doc comments.
-/

namespace PRQL

mutual

/-- The universal AST node; transliteration of `enum Item` in `src/ast.rs`. -/
inductive Item where
  | Transformation (t : Transformation)
  | Ident (name : String)
  | String (s : String)
  | Raw (s : String)
  | Assign (a : Assign)
  | NamedArg (n : NamedArg)
  | Query (items : List Item)
  | Pipeline (p : List Transformation)
  | List (items : List ListItem)
  | Terms (items : List Item)
  | Items (items : List Item)
  | Idents (idents : List String)
  | Function (f : Function)
  | Table (t : Table)
  | SString (parts : List SStringItem)
  | Todo (s : String)

/-- Transliteration of `struct ListItem(pub Items)`. -/
inductive ListItem where
  | mk (items : List Item)

/-- Transliteration of `enum Transformation`. -/
inductive Transformation where
  | From (ident : String)
  | Select (items : List Item)
  | Filter (f : Filter)
  | Derive (assigns : List Assign)
  | Aggregate (by_ : List Item) (calcs : List Item) (assigns : List Assign)
  | Sort (items : List Item)
  | Take (n : Int)
  | Join (items : List Item)
  | Func (call : FuncCall)

/-- Transliteration of `struct Function`. -/
inductive Function where
  | mk (name : String) (args : List String) (body : List Item)

/-- Transliteration of `struct FuncCall`. -/
inductive FuncCall where
  | mk (name : String) (args : List Item) (named_args : List NamedArg)

/-- Transliteration of `struct Table`. -/
inductive Table where
  | mk (name : String) (pipeline : List Transformation)

/-- Transliteration of `struct NamedArg`; the `Box` indirection is dropped. -/
inductive NamedArg where
  | mk (name : String) (arg : Item)

/-- Transliteration of `struct Assign`; the `Box` indirection is dropped. -/
inductive Assign where
  | mk (lvalue : String) (rvalue : Item)

/-- Transliteration of `enum SStringItem`. -/
inductive SStringItem where
  | String (s : String)
  | Expr (e : Item)

/-- Transliteration of `struct Filter(pub Items)`. -/
inductive Filter where
  | mk (items : List Item)

end

/-- Transliteration of `ListItem::into_inner`. -/
def ListItem.into_inner : ListItem → List Item
  | ListItem.mk items => items

/-- Field accessor for `FuncCall.name`. -/
def FuncCall.name : FuncCall → String
  | FuncCall.mk n _ _ => n

/-- True exactly on the `List` variant. -/
def is_list : Item → Bool
  | Item.List _ => true
  | _ => false

/-- True exactly on the `Terms` variant. -/
def is_terms : Item → Bool
  | Item.Terms _ => true
  | _ => false

/-- True exactly on the variants `into_inner_items`/`as_inner_items` treat as
containers: `Terms`, `Items` and `Query`. -/
def is_inner_container : Item → Bool
  | Item.Terms _ => true
  | Item.Items _ => true
  | Item.Query _ => true
  | _ => false

/-- True exactly on the two wrapper variants `as_scalar` may unwrap:
`Terms` and `Items`. -/
def is_wrapper : Item → Bool
  | Item.Terms _ => true
  | Item.Items _ => true
  | _ => false

/-- The Rust variant name of an `Item`, as it appears in `Debug` output. -/
def variant_name : Item → String
  | Item.Transformation _ => "Transformation"
  | Item.Ident _ => "Ident"
  | Item.String _ => "String"
  | Item.Raw _ => "Raw"
  | Item.Assign _ => "Assign"
  | Item.NamedArg _ => "NamedArg"
  | Item.Query _ => "Query"
  | Item.Pipeline _ => "Pipeline"
  | Item.List _ => "List"
  | Item.Terms _ => "Terms"
  | Item.Items _ => "Items"
  | Item.Idents _ => "Idents"
  | Item.Function _ => "Function"
  | Item.Table _ => "Table"
  | Item.SString _ => "SString"
  | Item.Todo _ => "Todo"

/-- One character of Rust `Debug` string escaping. Quotes, backslashes and
the common control characters are escaped as Rust does; other characters are
kept verbatim (a simplification of the full escape rules, irrelevant for the
variant-naming property proved here). -/
def rust_escape_char (c : Char) : String :=
  if c = '"' then "\\\""
  else if c = '\\' then "\\\\"
  else if c = '\n' then "\\n"
  else if c = '\t' then "\\t"
  else if c = '\r' then "\\r"
  else String.singleton c

/-- Rust `Debug` rendering of a `String`: quoted and escaped. -/
def debug_str (s : String) : String :=
  "\"" ++ String.join (s.toList.map rust_escape_char) ++ "\""

/-- Rust `Debug` rendering of an `i64`: plain decimal, `-` for negatives. -/
def debug_int (n : Int) : String :=
  toString n

/-- Rust `Debug` rendering of a `Vec<String>` (for `Idents` and function
argument lists). -/
def debug_strs (xs : List String) : String :=
  "[" ++ String.intercalate ", " (xs.map debug_str) ++ "]"

mutual

/-- Rust derived `Debug` rendering of an `Item` (the `{self:?}` text used by
the error messages in `src/ast.rs`): the variant name followed by the
rendered payload. -/
def debug_item (i : Item) : String :=
  variant_name i ++ debug_item_payload i
termination_by (sizeOf i, 1)

/-- The payload part (everything after the variant name) of the derived
`Debug` rendering of an `Item`. -/
def debug_item_payload : Item → String
  | Item.Transformation t => "(" ++ debug_transformation t ++ ")"
  | Item.Ident s => "(" ++ debug_str s ++ ")"
  | Item.String s => "(" ++ debug_str s ++ ")"
  | Item.Raw s => "(" ++ debug_str s ++ ")"
  | Item.Assign a => "(" ++ debug_assign a ++ ")"
  | Item.NamedArg n => "(" ++ debug_named_arg n ++ ")"
  | Item.Query xs => "(" ++ debug_items xs ++ ")"
  | Item.Pipeline p => "(" ++ debug_transformations p ++ ")"
  | Item.List lis => "(" ++ debug_list_items lis ++ ")"
  | Item.Terms xs => "(" ++ debug_items xs ++ ")"
  | Item.Items xs => "(" ++ debug_items xs ++ ")"
  | Item.Idents ids => "(" ++ debug_strs ids ++ ")"
  | Item.Function f => "(" ++ debug_function f ++ ")"
  | Item.Table t => "(" ++ debug_table t ++ ")"
  | Item.SString parts => "(" ++ debug_sstring_items parts ++ ")"
  | Item.Todo s => "(" ++ debug_str s ++ ")"
termination_by i => (sizeOf i, 0)

/-- Rust `Debug` rendering of a `Vec<Item>`. -/
def debug_items (xs : List Item) : String :=
  "[" ++ debug_items_sep xs ++ "]"
termination_by (sizeOf xs, 1)

/-- Comma-separated `Debug` renderings of a sequence of items. -/
def debug_items_sep : List Item → String
  | [] => ""
  | [x] => debug_item x
  | x :: rest => debug_item x ++ ", " ++ debug_items_sep rest
termination_by xs => (sizeOf xs, 0)

/-- Rust `Debug` rendering of a `Vec<ListItem>`. -/
def debug_list_items (xs : List ListItem) : String :=
  "[" ++ debug_list_items_sep xs ++ "]"
termination_by (sizeOf xs, 1)

/-- Comma-separated `Debug` renderings of a sequence of list items. -/
def debug_list_items_sep : List ListItem → String
  | [] => ""
  | [ListItem.mk xs] => "ListItem(" ++ debug_items xs ++ ")"
  | ListItem.mk xs :: rest =>
    "ListItem(" ++ debug_items xs ++ ")" ++ ", " ++ debug_list_items_sep rest
termination_by xs => (sizeOf xs, 0)

/-- Rust derived `Debug` rendering of a `Transformation`. -/
def debug_transformation : Transformation → String
  | Transformation.From i => "From(" ++ debug_str i ++ ")"
  | Transformation.Select xs => "Select(" ++ debug_items xs ++ ")"
  | Transformation.Filter (Filter.mk xs) =>
    "Filter(Filter(" ++ debug_items xs ++ "))"
  | Transformation.Derive assigns => "Derive(" ++ debug_assigns assigns ++ ")"
  | Transformation.Aggregate b c a =>
    "Aggregate \x7b by: " ++ debug_items b ++ ", calcs: " ++ debug_items c ++
      ", assigns: " ++ debug_assigns a ++ " \x7d"
  | Transformation.Sort xs => "Sort(" ++ debug_items xs ++ ")"
  | Transformation.Take n => "Take(" ++ debug_int n ++ ")"
  | Transformation.Join xs => "Join(" ++ debug_items xs ++ ")"
  | Transformation.Func fc => "Func(" ++ debug_func_call fc ++ ")"
termination_by t => (sizeOf t, 0)

/-- Rust `Debug` rendering of a `Vec<Transformation>`. -/
def debug_transformations (ts : List Transformation) : String :=
  "[" ++ debug_transformations_sep ts ++ "]"
termination_by (sizeOf ts, 1)

/-- Comma-separated `Debug` renderings of transformations. -/
def debug_transformations_sep : List Transformation → String
  | [] => ""
  | [t] => debug_transformation t
  | t :: rest => debug_transformation t ++ ", " ++ debug_transformations_sep rest
termination_by ts => (sizeOf ts, 0)

/-- Rust derived `Debug` rendering of an `Assign`. -/
def debug_assign : Assign → String
  | Assign.mk lv rv =>
    "Assign \x7b lvalue: " ++ debug_str lv ++ ", rvalue: " ++ debug_item rv ++ " \x7d"
termination_by a => (sizeOf a, 0)

/-- Rust `Debug` rendering of a `Vec<Assign>`. -/
def debug_assigns (xs : List Assign) : String :=
  "[" ++ debug_assigns_sep xs ++ "]"
termination_by (sizeOf xs, 1)

/-- Comma-separated `Debug` renderings of assigns. -/
def debug_assigns_sep : List Assign → String
  | [] => ""
  | [a] => debug_assign a
  | a :: rest => debug_assign a ++ ", " ++ debug_assigns_sep rest
termination_by xs => (sizeOf xs, 0)

/-- Rust derived `Debug` rendering of a `NamedArg`. -/
def debug_named_arg : NamedArg → String
  | NamedArg.mk n a =>
    "NamedArg \x7b name: " ++ debug_str n ++ ", arg: " ++ debug_item a ++ " \x7d"
termination_by n => (sizeOf n, 0)

/-- Rust `Debug` rendering of a `Vec<NamedArg>`. -/
def debug_named_args (xs : List NamedArg) : String :=
  "[" ++ debug_named_args_sep xs ++ "]"
termination_by (sizeOf xs, 1)

/-- Comma-separated `Debug` renderings of named arguments. -/
def debug_named_args_sep : List NamedArg → String
  | [] => ""
  | [a] => debug_named_arg a
  | a :: rest => debug_named_arg a ++ ", " ++ debug_named_args_sep rest
termination_by xs => (sizeOf xs, 0)

/-- Rust derived `Debug` rendering of a `Function`. -/
def debug_function : Function → String
  | Function.mk n args body =>
    "Function \x7b name: " ++ debug_str n ++ ", args: " ++ debug_strs args ++
      ", body: " ++ debug_items body ++ " \x7d"
termination_by f => (sizeOf f, 0)

/-- Rust derived `Debug` rendering of a `FuncCall`. -/
def debug_func_call : FuncCall → String
  | FuncCall.mk n args named =>
    "FuncCall \x7b name: " ++ debug_str n ++ ", args: " ++ debug_items args ++
      ", named_args: " ++ debug_named_args named ++ " \x7d"
termination_by fc => (sizeOf fc, 0)

/-- Rust derived `Debug` rendering of a `Table`. -/
def debug_table : Table → String
  | Table.mk n p =>
    "Table \x7b name: " ++ debug_str n ++ ", pipeline: " ++
      debug_transformations p ++ " \x7d"
termination_by t => (sizeOf t, 0)

/-- Rust derived `Debug` rendering of a `Vec<SStringItem>`. -/
def debug_sstring_items (xs : List SStringItem) : String :=
  "[" ++ debug_sstring_items_sep xs ++ "]"
termination_by (sizeOf xs, 1)

/-- Comma-separated `Debug` renderings of s-string parts. -/
def debug_sstring_items_sep : List SStringItem → String
  | [] => ""
  | [SStringItem.String s] => "String(" ++ debug_str s ++ ")"
  | [SStringItem.Expr e] => "Expr(" ++ debug_item e ++ ")"
  | SStringItem.String s :: rest =>
    "String(" ++ debug_str s ++ ")" ++ ", " ++ debug_sstring_items_sep rest
  | SStringItem.Expr e :: rest =>
    "Expr(" ++ debug_item e ++ ")" ++ ", " ++ debug_sstring_items_sep rest
termination_by xs => (sizeOf xs, 0)

end

/-- Modelled from the spec: `utils::only` (not under `src/`) — succeeds with
the element exactly when the sequence holds exactly one element. -/
def only {α : Type} : List α → Option α
  | [x] => some x
  | _ => none

/-- Modelled from the spec: `utils::IntoOnly::into_only` (not under `src/`) —
returns the sole element, or an "expected exactly one element" error when the
sequence holds zero or two-or-more elements. -/
def into_only {α : Type} : List α → Except String α
  | [x] => Except.ok x
  | _ => Except.error "Expected exactly one element"

/-- Transliteration of `Item::into_inner_items`: either provide a Vec with the
contents of Items / Terms / Query, or put the scalar into a Vec. -/
def into_inner_items : Item → List Item
  | Item.Terms items => items
  | Item.Items items => items
  | Item.Query items => items
  | i => [i]

/-- Transliteration of `Item::as_inner_items`: the contents of Terms / Items /
Query, or the error `Expected container type; got {self:?}`. -/
def as_inner_items : Item → Except String (List Item)
  | Item.Terms items => Except.ok items
  | Item.Items items => Except.ok items
  | Item.Query items => Except.ok items
  | i => Except.error ("Expected container type; got " ++ debug_item i)

/-- Transliteration of `Item::into_inner_list_items`: the per-`ListItem`
sequences of a `List`, or the error `Expected a list, got {self:?}`. -/
def into_inner_list_items : Item → Except String (List (List Item))
  | Item.List items => Except.ok (items.map ListItem.into_inner)
  | i => Except.error ("Expected a list, got " ++ debug_item i)

/-- The `map(into_inner().into_only()).try_collect()` step of
`Item::into_inner_list_single_items`: left-to-right, the first failing
element aborts the collection. -/
def list_items_into_only : List ListItem → Except String (List Item)
  | [] => Except.ok []
  | li :: rest => do
    let x ← into_only li.into_inner
    let xs ← list_items_into_only rest
    pure (x :: xs)

/-- Transliteration of `Item::into_inner_list_single_items`: for a `List`
whose every `ListItem` holds exactly one item, those items; a `TypeMismatch`
error for any non-`List` input. -/
def into_inner_list_single_items : Item → Except String (List Item)
  | Item.List items => list_items_into_only items
  | i => Except.error ("Expected a list, got " ++ debug_item i)

/-- Transliteration of `Item::coerce_to_terms`: wrap in `Terms` unless the
value already is a `Terms`. -/
def coerce_to_terms (i : Item) : Item :=
  match i with
  | Item.Terms _ => i
  | _ => Item.Terms [i]

/-- Transliteration of `Item::coerce_to_list`: wrap as a one-`ListItem`
`List` unless the value already is a `List`. -/
def coerce_to_list (i : Item) : Item :=
  match i with
  | Item.List _ => i
  | _ => Item.List [ListItem.mk [i]]

/-- Transliteration of `Item::into_list_of_items`: a `List` giving each input
item its own single-element `ListItem`. -/
def into_list_of_items (items : List Item) : Item :=
  Item.List (items.map (fun item => ListItem.mk [item]))

/-- Transliteration of `Item::as_scalar`: keep unwrapping `Terms` / `Items`
wrappers while the current node holds exactly one element (the source phrases
the singleton test through `utils::only`, modelled by the one-element list
pattern; see `as_scalar_via_only`). -/
def as_scalar : Item → Item
  | Item.Terms [x] => as_scalar x
  | Item.Items [x] => as_scalar x
  | i => i

/-- Transliteration of `Transformation::name`. -/
def Transformation.name : Transformation → String
  | Transformation.From _ => "from"
  | Transformation.Select _ => "select"
  | Transformation.Filter _ => "filter"
  | Transformation.Derive _ => "derive"
  | Transformation.Aggregate _ _ _ => "aggregate"
  | Transformation.Sort _ => "sort"
  | Transformation.Take _ => "take"
  | Transformation.Join _ => "join"
  | Transformation.Func fc => fc.name

end PRQL

namespace PRQL

/-- `sizeOf` bound for `as_scalar`: unwrapping never grows the tree. -/
theorem sizeOf_as_scalar : ∀ i : Item, sizeOf (as_scalar i) ≤ sizeOf i := by
  have key : ∀ n, ∀ i : Item, sizeOf i < n → sizeOf (as_scalar i) ≤ sizeOf i := by
    intro n
    induction n with
    | zero => intro i h; omega
    | succ n ih =>
      intro i h
      cases i with
      | Terms xs =>
        match xs with
        | [] => simp [as_scalar]
        | [x] =>
          have hx : sizeOf x < n := by simp at h; omega
          have := ih x hx
          simp [as_scalar]
          omega
        | x :: y :: rest => simp [as_scalar]
      | Items xs =>
        match xs with
        | [] => simp [as_scalar]
        | [x] =>
          have hx : sizeOf x < n := by simp at h; omega
          have := ih x hx
          simp [as_scalar]
          omega
        | x :: y :: rest => simp [as_scalar]
      | Transformation t => simp [as_scalar]
      | Ident s => simp [as_scalar]
      | String s => simp [as_scalar]
      | Raw s => simp [as_scalar]
      | Assign a => simp [as_scalar]
      | NamedArg na => simp [as_scalar]
      | Query xs => simp [as_scalar]
      | Pipeline p => simp [as_scalar]
      | List lis => simp [as_scalar]
      | Idents ids => simp [as_scalar]
      | Function f => simp [as_scalar]
      | Table t => simp [as_scalar]
      | SString ps => simp [as_scalar]
      | Todo s => simp [as_scalar]
  intro i
  exact key (sizeOf i + 1) i (Nat.lt_succ_self _)

/-- Helper for the lexicographic termination measure of the fold family:
the first component may stay equal only when the tag drops. -/
theorem lex_le_helper {a b : Nat} (h : a ≤ b) :
    Prod.Lex (fun x y : Nat => x < y) (fun x y : Nat => x < y) (a, 0) (b, 1) := by
  rcases lt_or_eq_of_le h with h | h
  · exact Prod.Lex.left _ _ h
  · subst h; exact Prod.Lex.right _ (by omega)

mutual

/-- Modelled from the spec: the fold framework default `ast_fold::fold_item`
(not under `src/`) — rebuild the node with every child item and substructure
recursively folded (child items through the folder hook, here the `Unnest`
override), all non-recursive fields unchanged; a failure at any child
propagates. -/
def fold_item : Item → Except String Item
  | Item.Transformation t => do pure (Item.Transformation (← fold_transformation t))
  | Item.Ident s => pure (Item.Ident s)
  | Item.String s => pure (Item.String s)
  | Item.Raw s => pure (Item.Raw s)
  | Item.Assign a => do pure (Item.Assign (← fold_assign a))
  | Item.NamedArg n => do pure (Item.NamedArg (← fold_named_arg n))
  | Item.Query xs => do pure (Item.Query (← fold_items xs))
  | Item.Pipeline p => do pure (Item.Pipeline (← fold_pipeline p))
  | Item.List lis => do pure (Item.List (← fold_list_items lis))
  | Item.Terms xs => do pure (Item.Terms (← fold_items xs))
  | Item.Items xs => do pure (Item.Items (← fold_items xs))
  | Item.Idents ids => pure (Item.Idents ids)
  | Item.Function f => do pure (Item.Function (← fold_function f))
  | Item.Table t => do pure (Item.Table (← fold_table t))
  | Item.SString parts => do pure (Item.SString (← fold_sstring_items parts))
  | Item.Todo s => pure (Item.Todo s)
termination_by i => (sizeOf i, 0)

/-- Transliteration of `impl AstFold for Unnest`: the one override of the
fold hook — a `Terms` node is first replaced by its `as_scalar`, then the
default recursive fold applies; every other node goes straight to the
default fold. -/
def Unnest.fold_item : Item → Except String Item
  | Item.Terms xs => fold_item (as_scalar (Item.Terms xs))
  | i => fold_item i
termination_by i => (sizeOf i, 1)
decreasing_by
  all_goals simp_wf
  all_goals
    first
    | exact Prod.Lex.right _ (by omega)
    | exact lex_le_helper (le_trans (sizeOf_as_scalar _) (by simp))

/-- The default fold of a sequence of items, each through the fold hook. -/
def fold_items : List Item → Except String (List Item)
  | [] => pure []
  | x :: rest => do pure ((← Unnest.fold_item x) :: (← fold_items rest))
termination_by xs => (sizeOf xs, 0)

/-- The default fold of a `Vec<ListItem>`. -/
def fold_list_items : List ListItem → Except String (List ListItem)
  | [] => pure []
  | ListItem.mk xs :: rest => do
    pure (ListItem.mk (← fold_items xs) :: (← fold_list_items rest))
termination_by xs => (sizeOf xs, 0)

/-- The default fold of a `Transformation`. -/
def fold_transformation : Transformation → Except String Transformation
  | Transformation.From i => pure (Transformation.From i)
  | Transformation.Select xs => do pure (Transformation.Select (← fold_items xs))
  | Transformation.Filter (Filter.mk xs) => do
    pure (Transformation.Filter (Filter.mk (← fold_items xs)))
  | Transformation.Derive assigns => do
    pure (Transformation.Derive (← fold_assigns assigns))
  | Transformation.Aggregate b c a => do
    pure (Transformation.Aggregate (← fold_items b) (← fold_items c) (← fold_assigns a))
  | Transformation.Sort xs => do pure (Transformation.Sort (← fold_items xs))
  | Transformation.Take n => pure (Transformation.Take n)
  | Transformation.Join xs => do pure (Transformation.Join (← fold_items xs))
  | Transformation.Func fc => do pure (Transformation.Func (← fold_func_call fc))
termination_by t => (sizeOf t, 0)

/-- The default fold of a `Pipeline`. -/
def fold_pipeline : List Transformation → Except String (List Transformation)
  | [] => pure []
  | t :: rest => do pure ((← fold_transformation t) :: (← fold_pipeline rest))
termination_by ts => (sizeOf ts, 0)

/-- The default fold of an `Assign`: the rvalue is a child item. -/
def fold_assign : Assign → Except String Assign
  | Assign.mk lv rv => do pure (Assign.mk lv (← Unnest.fold_item rv))
termination_by a => (sizeOf a, 0)

/-- The default fold of a `Vec<Assign>`. -/
def fold_assigns : List Assign → Except String (List Assign)
  | [] => pure []
  | a :: rest => do pure ((← fold_assign a) :: (← fold_assigns rest))
termination_by xs => (sizeOf xs, 0)

/-- The default fold of a `NamedArg`: the argument is a child item. -/
def fold_named_arg : NamedArg → Except String NamedArg
  | NamedArg.mk n a => do pure (NamedArg.mk n (← Unnest.fold_item a))
termination_by n => (sizeOf n, 0)

/-- The default fold of a `Vec<NamedArg>`. -/
def fold_named_args : List NamedArg → Except String (List NamedArg)
  | [] => pure []
  | a :: rest => do pure ((← fold_named_arg a) :: (← fold_named_args rest))
termination_by xs => (sizeOf xs, 0)

/-- The default fold of a `Vec<SStringItem>`: literal fragments unchanged,
embedded expressions folded as child items. -/
def fold_sstring_items : List SStringItem → Except String (List SStringItem)
  | [] => pure []
  | SStringItem.String s :: rest => do
    pure (SStringItem.String s :: (← fold_sstring_items rest))
  | SStringItem.Expr e :: rest => do
    pure (SStringItem.Expr (← Unnest.fold_item e) :: (← fold_sstring_items rest))
termination_by xs => (sizeOf xs, 0)

/-- The default fold of a `FuncCall`. -/
def fold_func_call : FuncCall → Except String FuncCall
  | FuncCall.mk n args named => do
    pure (FuncCall.mk n (← fold_items args) (← fold_named_args named))
termination_by fc => (sizeOf fc, 0)

/-- The default fold of a `Function`: the body is a sequence of child items. -/
def fold_function : Function → Except String Function
  | Function.mk n args body => do pure (Function.mk n args (← fold_items body))
termination_by f => (sizeOf f, 0)

/-- The default fold of a `Table`: the pipeline is folded. -/
def fold_table : Table → Except String Table
  | Table.mk n p => do pure (Table.mk n (← fold_pipeline p))
termination_by t => (sizeOf t, 0)

end

end PRQL

namespace PRQL

mutual

/-- Pure mirror of the default fold `fold_item`, used to reason about the
`Unnest` pass; `fold_ok_default` below proves `fold_item i = Except.ok
(unnest_default i)`. -/
def unnest_default : Item → Item
  | Item.Transformation t => Item.Transformation (unnest_transformation t)
  | Item.Ident s => Item.Ident s
  | Item.String s => Item.String s
  | Item.Raw s => Item.Raw s
  | Item.Assign a => Item.Assign (unnest_assign a)
  | Item.NamedArg n => Item.NamedArg (unnest_named_arg n)
  | Item.Query xs => Item.Query (unnest_items xs)
  | Item.Pipeline p => Item.Pipeline (unnest_pipeline p)
  | Item.List lis => Item.List (unnest_list_items lis)
  | Item.Terms xs => Item.Terms (unnest_items xs)
  | Item.Items xs => Item.Items (unnest_items xs)
  | Item.Idents ids => Item.Idents ids
  | Item.Function f => Item.Function (unnest_function f)
  | Item.Table t => Item.Table (unnest_table t)
  | Item.SString parts => Item.SString (unnest_sstring_items parts)
  | Item.Todo s => Item.Todo s
termination_by i => (sizeOf i, 0)

/-- Pure mirror of the `Unnest` fold hook `Unnest.fold_item`. -/
def unnest_item : Item → Item
  | Item.Terms xs => unnest_default (as_scalar (Item.Terms xs))
  | i => unnest_default i
termination_by i => (sizeOf i, 1)
decreasing_by
  all_goals simp_wf
  all_goals
    first
    | exact Prod.Lex.right _ (by omega)
    | exact lex_le_helper (le_trans (sizeOf_as_scalar _) (by simp))

/-- Pure mirror of `fold_items`. -/
def unnest_items : List Item → List Item
  | [] => []
  | x :: rest => unnest_item x :: unnest_items rest
termination_by xs => (sizeOf xs, 0)

/-- Pure mirror of `fold_list_items`. -/
def unnest_list_items : List ListItem → List ListItem
  | [] => []
  | ListItem.mk xs :: rest => ListItem.mk (unnest_items xs) :: unnest_list_items rest
termination_by xs => (sizeOf xs, 0)

/-- Pure mirror of `fold_transformation`. -/
def unnest_transformation : Transformation → Transformation
  | Transformation.From i => Transformation.From i
  | Transformation.Select xs => Transformation.Select (unnest_items xs)
  | Transformation.Filter (Filter.mk xs) => Transformation.Filter (Filter.mk (unnest_items xs))
  | Transformation.Derive assigns => Transformation.Derive (unnest_assigns assigns)
  | Transformation.Aggregate b c a =>
    Transformation.Aggregate (unnest_items b) (unnest_items c) (unnest_assigns a)
  | Transformation.Sort xs => Transformation.Sort (unnest_items xs)
  | Transformation.Take n => Transformation.Take n
  | Transformation.Join xs => Transformation.Join (unnest_items xs)
  | Transformation.Func fc => Transformation.Func (unnest_func_call fc)
termination_by t => (sizeOf t, 0)

/-- Pure mirror of `fold_pipeline`. -/
def unnest_pipeline : List Transformation → List Transformation
  | [] => []
  | t :: rest => unnest_transformation t :: unnest_pipeline rest
termination_by ts => (sizeOf ts, 0)

/-- Pure mirror of `fold_assign`. -/
def unnest_assign : Assign → Assign
  | Assign.mk lv rv => Assign.mk lv (unnest_item rv)
termination_by a => (sizeOf a, 0)

/-- Pure mirror of `fold_assigns`. -/
def unnest_assigns : List Assign → List Assign
  | [] => []
  | a :: rest => unnest_assign a :: unnest_assigns rest
termination_by xs => (sizeOf xs, 0)

/-- Pure mirror of `fold_named_arg`. -/
def unnest_named_arg : NamedArg → NamedArg
  | NamedArg.mk n a => NamedArg.mk n (unnest_item a)
termination_by n => (sizeOf n, 0)

/-- Pure mirror of `fold_named_args`. -/
def unnest_named_args : List NamedArg → List NamedArg
  | [] => []
  | a :: rest => unnest_named_arg a :: unnest_named_args rest
termination_by xs => (sizeOf xs, 0)

/-- Pure mirror of `fold_sstring_items`. -/
def unnest_sstring_items : List SStringItem → List SStringItem
  | [] => []
  | SStringItem.String s :: rest => SStringItem.String s :: unnest_sstring_items rest
  | SStringItem.Expr e :: rest => SStringItem.Expr (unnest_item e) :: unnest_sstring_items rest
termination_by xs => (sizeOf xs, 0)

/-- Pure mirror of `fold_func_call`. -/
def unnest_func_call : FuncCall → FuncCall
  | FuncCall.mk n args named => FuncCall.mk n (unnest_items args) (unnest_named_args named)
termination_by fc => (sizeOf fc, 0)

/-- Pure mirror of `fold_function`. -/
def unnest_function : Function → Function
  | Function.mk n args body => Function.mk n args (unnest_items body)
termination_by f => (sizeOf f, 0)

/-- Pure mirror of `fold_table`. -/
def unnest_table : Table → Table
  | Table.mk n p => Table.mk n (unnest_pipeline p)
termination_by t => (sizeOf t, 0)

end

/-- Transliteration of `IntoUnnested::into_unnested` for `Item`: run the
`Unnest` fold and unwrap its result. The source calls `.unwrap()` on the
fold result, which panics on an `Err`; the `Except.error` arm here returns
the input as an arbitrary placeholder, and `fold_ok_item` below proves that
arm unreachable. -/
def into_unnested (i : Item) : Item :=
  match Unnest.fold_item i with
  | Except.ok r => r
  | Except.error _ => i

end PRQL

namespace PRQL

/-- `pure` in the `Except` monad is `Except.ok`. -/
theorem except_pure_eq {α : Type} (a : α) : (pure a : Except String α) = Except.ok a := rfl

/-- Binding a successful `Except` computation applies the continuation. -/
theorem except_bind_ok {α β : Type} (a : α) (f : α → Except String β) :
    (Except.ok a >>= f : Except String β) = f a := rfl

/-- Totality of the `Unnest` fold: the fold hook always succeeds, and its
result is the pure mirror `unnest_item`. Proved simultaneously for every
function of the fold family by functional induction. -/
theorem fold_ok_item : ∀ i : Item, Unnest.fold_item i = Except.ok (unnest_item i) := by
  apply @Unnest.fold_item.induct
    (fun i => fold_item i = Except.ok (unnest_default i))
    (fun xs => fold_sstring_items xs = Except.ok (unnest_sstring_items xs))
    (fun i => Unnest.fold_item i = Except.ok (unnest_item i))
    (fun t => fold_table t = Except.ok (unnest_table t))
    (fun p => fold_pipeline p = Except.ok (unnest_pipeline p))
    (fun t => fold_transformation t = Except.ok (unnest_transformation t))
    (fun fc => fold_func_call fc = Except.ok (unnest_func_call fc))
    (fun xs => fold_named_args xs = Except.ok (unnest_named_args xs))
    (fun a => fold_named_arg a = Except.ok (unnest_named_arg a))
    (fun xs => fold_items xs = Except.ok (unnest_items xs))
    (fun xs => fold_assigns xs = Except.ok (unnest_assigns xs))
    (fun a => fold_assign a = Except.ok (unnest_assign a))
    (fun f => fold_function f = Except.ok (unnest_function f))
    (fun xs => fold_list_items xs = Except.ok (unnest_list_items xs))
  all_goals intros
  all_goals
    simp_all [fold_item, Unnest.fold_item, fold_items, fold_list_items,
      fold_transformation, fold_pipeline, fold_assign, fold_assigns,
      fold_named_arg, fold_named_args, fold_sstring_items, fold_func_call,
      fold_function, fold_table, unnest_default, unnest_item, unnest_items,
      unnest_list_items, unnest_transformation, unnest_pipeline, unnest_assign,
      unnest_assigns, unnest_named_arg, unnest_named_args, unnest_sstring_items,
      unnest_func_call, unnest_function, unnest_table, except_pure_eq, except_bind_ok]

/-- `into_unnested` computes the pure mirror: the unwrap in the source never
sees an `Err`. -/
theorem into_unnested_eq (i : Item) : into_unnested i = unnest_item i := by
  simp [into_unnested, fold_ok_item i]

end PRQL

namespace PRQL

/-- `as_scalar` is a projection: applying it twice changes nothing. -/
theorem as_scalar_fix : ∀ i : Item, as_scalar (as_scalar i) = as_scalar i := by
  have key : ∀ n, ∀ i : Item, sizeOf i < n → as_scalar (as_scalar i) = as_scalar i := by
    intro n
    induction n with
    | zero => intro i h; omega
    | succ n ih =>
      intro i h
      cases i with
      | Terms xs =>
        match xs with
        | [] => simp [as_scalar]
        | [x] =>
          have hx : sizeOf x < n := by simp at h; omega
          simp [as_scalar]
          exact ih x hx
        | x :: y :: rest => simp [as_scalar]
      | Items xs =>
        match xs with
        | [] => simp [as_scalar]
        | [x] =>
          have hx : sizeOf x < n := by simp at h; omega
          simp [as_scalar]
          exact ih x hx
        | x :: y :: rest => simp [as_scalar]
      | Transformation t => simp [as_scalar]
      | Ident s => simp [as_scalar]
      | String s => simp [as_scalar]
      | Raw s => simp [as_scalar]
      | Assign a => simp [as_scalar]
      | NamedArg na => simp [as_scalar]
      | Query xs => simp [as_scalar]
      | Pipeline p => simp [as_scalar]
      | List lis => simp [as_scalar]
      | Idents ids => simp [as_scalar]
      | Function f => simp [as_scalar]
      | Table t => simp [as_scalar]
      | SString ps => simp [as_scalar]
      | Todo s => simp [as_scalar]
  intro i
  exact key (sizeOf i + 1) i (Nat.lt_succ_self _)

/-- The projection never lands on a one-element `Terms` wrapper. -/
theorem as_scalar_ne_terms_singleton (i x : Item) : as_scalar i ≠ Item.Terms [x] := by
  intro heq
  have h2 := as_scalar_fix i
  rw [heq] at h2
  simp [as_scalar] at h2
  have h3 := sizeOf_as_scalar x
  rw [h2] at h3
  simp at h3
  omega

/-- The projection never lands on a one-element `Items` wrapper. -/
theorem as_scalar_ne_items_singleton (i x : Item) : as_scalar i ≠ Item.Items [x] := by
  intro heq
  have h2 := as_scalar_fix i
  rw [heq] at h2
  simp [as_scalar] at h2
  have h3 := sizeOf_as_scalar x
  rw [h2] at h3
  simp at h3
  omega

/-- A `Terms` whose element count differs from one is its own scalar. -/
theorem as_scalar_terms_len (xs : List Item) (h : xs.length ≠ 1) :
    as_scalar (Item.Terms xs) = Item.Terms xs := by
  match xs with
  | [] => simp [as_scalar]
  | [x] => simp at h
  | x :: y :: rest => simp [as_scalar]

/-- An `Items` whose element count differs from one is its own scalar. -/
theorem as_scalar_items_len (xs : List Item) (h : xs.length ≠ 1) :
    as_scalar (Item.Items xs) = Item.Items xs := by
  match xs with
  | [] => simp [as_scalar]
  | [x] => simp at h
  | x :: y :: rest => simp [as_scalar]

/-- The fold of a sequence keeps its length. -/
theorem unnest_items_length : ∀ xs : List Item, (unnest_items xs).length = xs.length := by
  intro xs
  induction xs with
  | nil => simp [unnest_items]
  | cons x rest ih => simp [unnest_items, ih]

/-- The fold of a sequence is the elementwise fold. -/
theorem unnest_items_map : ∀ xs : List Item, unnest_items xs = xs.map unnest_item := by
  intro xs
  induction xs with
  | nil => simp [unnest_items]
  | cons x rest ih => simp [unnest_items, ih]

/-- Away from `Terms`, the fold hook is the default fold. -/
theorem unnest_item_not_terms : ∀ x : Item, is_terms x = false → unnest_item x = unnest_default x := by
  intro x h
  cases x <;> simp_all [is_terms, unnest_item]

end PRQL

namespace PRQL

/-- Idempotence of the pure `Unnest` fold, proved for the whole family by
functional induction. The motive for the default fold is guarded: the
default is re-folded only on nodes that are not one-element `Terms`
wrappers, which is exactly how the hook reaches it. -/
theorem unnest_item_idem : ∀ i : Item, unnest_item (unnest_item i) = unnest_item i := by
  apply @Unnest.fold_item.induct
    (fun r => (∀ ys, r = Item.Terms ys → ys.length ≠ 1) →
      unnest_item (unnest_default r) = unnest_default r)
    (fun xs => unnest_sstring_items (unnest_sstring_items xs) = unnest_sstring_items xs)
    (fun i => unnest_item (unnest_item i) = unnest_item i)
    (fun t => unnest_table (unnest_table t) = unnest_table t)
    (fun p => unnest_pipeline (unnest_pipeline p) = unnest_pipeline p)
    (fun t => unnest_transformation (unnest_transformation t) = unnest_transformation t)
    (fun fc => unnest_func_call (unnest_func_call fc) = unnest_func_call fc)
    (fun xs => unnest_named_args (unnest_named_args xs) = unnest_named_args xs)
    (fun a => unnest_named_arg (unnest_named_arg a) = unnest_named_arg a)
    (fun xs => unnest_items (unnest_items xs) = unnest_items xs)
    (fun xs => unnest_assigns (unnest_assigns xs) = unnest_assigns xs)
    (fun a => unnest_assign (unnest_assign a) = unnest_assign a)
    (fun f => unnest_function (unnest_function f) = unnest_function f)
    (fun xs => unnest_list_items (unnest_list_items xs) = unnest_list_items xs)
  case case10 =>
    intro items ih hguard
    have hlen : items.length ≠ 1 := hguard items rfl
    have hlen2 : (unnest_items items).length ≠ 1 := by
      rw [unnest_items_length]; exact hlen
    simp [unnest_default, unnest_item, as_scalar_terms_len _ hlen2, ih]
  case case20 =>
    intro items ih
    have hok : ∀ ys, as_scalar (Item.Terms items) = Item.Terms ys → ys.length ≠ 1 := by
      intro ys hy hl
      obtain ⟨x, rfl⟩ := List.length_eq_one.mp hl
      exact as_scalar_ne_terms_singleton _ x hy
    have h2 := ih hok
    simp only [unnest_item]
    exact h2
  case case21 =>
    intro x hne ih
    have hterm : is_terms x = false := by
      cases x <;> simp [is_terms]
      exact hne _ rfl
    have hok : ∀ ys, x = Item.Terms ys → ys.length ≠ 1 :=
      fun ys hy => (hne ys hy).elim
    have h2 := ih hok
    rw [unnest_item_not_terms x hterm]
    exact h2
  all_goals intros
  all_goals
    simp_all [unnest_item, unnest_default, unnest_items, unnest_list_items,
      unnest_transformation, unnest_pipeline, unnest_assign, unnest_assigns,
      unnest_named_arg, unnest_named_args, unnest_sstring_items,
      unnest_func_call, unnest_function, unnest_table]

end PRQL

namespace PRQL

/-- Elementwise form of the sequence fold, phrased with `into_unnested`. -/
theorem map_into_unnested (xs : List Item) : xs.map into_unnested = unnest_items xs := by
  induction xs with
  | nil => simp [unnest_items]
  | cons x rest ih => simp [unnest_items, into_unnested_eq, ih]

/-- Elementwise form of the `ListItem` sequence fold. -/
theorem unnest_list_items_map : ∀ lis : List ListItem,
    unnest_list_items lis =
      lis.map (fun li => ListItem.mk ((ListItem.into_inner li).map unnest_item)) := by
  intro lis
  induction lis with
  | nil => simp [unnest_list_items]
  | cons li rest ih =>
    match li with
    | ListItem.mk xs => simp [unnest_list_items, ListItem.into_inner, unnest_items_map, ih]

end PRQL

namespace PRQL

/-- Claim C1: `Unnest` is idempotent — for every `Item` tree `T`,
`into_unnested (into_unnested T) = into_unnested T`. -/
theorem claim_C1_unnest_idempotent :
    ∀ T : Item, into_unnested (into_unnested T) = into_unnested T := by
  intro T
  simp [into_unnested_eq, unnest_item_idem]

/-- Claim C2: `as_scalar` recursively unwraps singleton `Terms` / `Items`
wrappers, returns any `Terms` / `Items` of length other than one and any
other variant unchanged, and collapses the two-level example to the inner
ident. It is total and pure by construction. -/
theorem claim_C2_as_scalar_behavior :
    (∀ x : Item, as_scalar (Item.Terms [x]) = as_scalar x) ∧
    (∀ x : Item, as_scalar (Item.Items [x]) = as_scalar x) ∧
    (∀ xs : List Item, xs.length ≠ 1 → as_scalar (Item.Terms xs) = Item.Terms xs) ∧
    (∀ xs : List Item, xs.length ≠ 1 → as_scalar (Item.Items xs) = Item.Items xs) ∧
    (∀ x : Item, is_wrapper x = false → as_scalar x = x) ∧
    as_scalar (Item.Terms [Item.Terms [Item.Ident "a"]]) = Item.Ident "a" := by
  refine ⟨fun x => by simp [as_scalar], fun x => by simp [as_scalar],
    as_scalar_terms_len, as_scalar_items_len, ?_, by simp [as_scalar]⟩
  intro x h
  cases x <;> simp_all [is_wrapper, as_scalar]

/-- Witness for C2 at concrete inputs. -/
theorem claim_C2_witness :
    (([] : List Item).length ≠ 1 ∧ as_scalar (Item.Terms []) = Item.Terms []) ∧
    (([] : List Item).length ≠ 1 ∧ as_scalar (Item.Items []) = Item.Items []) ∧
    (is_wrapper (Item.Ident "a") = false ∧ as_scalar (Item.Ident "a") = Item.Ident "a") :=
  ⟨⟨by simp, claim_C2_as_scalar_behavior.2.2.1 [] (by simp)⟩,
   ⟨by simp, claim_C2_as_scalar_behavior.2.2.2.1 [] (by simp)⟩,
   ⟨rfl, claim_C2_as_scalar_behavior.2.2.2.2.1 (Item.Ident "a") rfl⟩⟩

end PRQL

namespace PRQL

/-- Claim C3: the `Unnest` pass collapses each `Terms` to its scalar before
recursing and treats siblings independently — a `Terms` whose length is not
one keeps its `Terms` root while every child is folded, and the two-sibling
example collapses each singleton child. -/
theorem claim_C3_sibling_independence :
    (∀ xs : List Item, xs.length ≠ 1 →
      into_unnested (Item.Terms xs) = Item.Terms (xs.map into_unnested)) ∧
    into_unnested (Item.Terms [Item.Terms [Item.Ident "a"], Item.Terms [Item.Ident "a"]]) =
      Item.Terms [Item.Ident "a", Item.Ident "a"] := by
  constructor
  · intro xs h
    rw [into_unnested_eq, map_into_unnested]
    simp [unnest_item, as_scalar_terms_len _ h, unnest_default]
  · simp [into_unnested_eq, unnest_item, unnest_default, unnest_items, as_scalar]

/-- Witness for C3 at a concrete two-element `Terms`. -/
theorem claim_C3_witness :
    ([Item.Terms [Item.Ident "a"], Item.Terms [Item.Ident "a"]] : List Item).length ≠ 1 ∧
    into_unnested (Item.Terms [Item.Terms [Item.Ident "a"], Item.Terms [Item.Ident "a"]]) =
      Item.Terms
        ([Item.Terms [Item.Ident "a"], Item.Terms [Item.Ident "a"]].map into_unnested) :=
  ⟨by simp, claim_C3_sibling_independence.1 _ (by simp)⟩

/-- Claim C4: the `Unnest` pass never collapses a `List` (nor `Items` or
`Query`) merely for being singleton — a one-`ListItem`, one-element `List`
keeps its one-element `List` root, and `List` / `Items` / `Query` roots are
always preserved with only their children folded. -/
theorem claim_C4_only_terms_collapsed :
    (∀ x : Item, into_unnested (Item.List [ListItem.mk [x]]) =
      Item.List [ListItem.mk [into_unnested x]]) ∧
    (∀ lis : List ListItem, into_unnested (Item.List lis) =
      Item.List (lis.map (fun li => ListItem.mk ((ListItem.into_inner li).map into_unnested)))) ∧
    (∀ xs : List Item, into_unnested (Item.Items xs) = Item.Items (xs.map into_unnested)) ∧
    (∀ xs : List Item, into_unnested (Item.Query xs) = Item.Query (xs.map into_unnested)) := by
  refine ⟨?_, ?_, ?_, ?_⟩
  · intro x
    simp [into_unnested_eq, unnest_item, unnest_default, unnest_list_items, unnest_items]
  · intro lis
    rw [into_unnested_eq]
    simp [unnest_item, unnest_default, unnest_list_items_map, map_into_unnested, unnest_items_map]
  · intro xs
    rw [into_unnested_eq, map_into_unnested]
    simp [unnest_item, unnest_default]
  · intro xs
    rw [into_unnested_eq, map_into_unnested]
    simp [unnest_item, unnest_default]

end PRQL

namespace PRQL

/-- Claim C5: `into_inner_items` returns the contained sequence for `Terms`,
`Items` and `Query`, and the one-element sequence holding the unchanged value
for every other variant; it is total. -/
theorem claim_C5_into_inner_items :
    (∀ xs : List Item, into_inner_items (Item.Terms xs) = xs) ∧
    (∀ xs : List Item, into_inner_items (Item.Items xs) = xs) ∧
    (∀ xs : List Item, into_inner_items (Item.Query xs) = xs) ∧
    (∀ x : Item, is_inner_container x = false → into_inner_items x = [x]) := by
  refine ⟨fun xs => rfl, fun xs => rfl, fun xs => rfl, ?_⟩
  intro x h
  cases x <;> simp_all [is_inner_container, into_inner_items]

/-- Witness for C5 at a concrete non-container. -/
theorem claim_C5_witness :
    is_inner_container (Item.Ident "a") = false ∧
    into_inner_items (Item.Ident "a") = [Item.Ident "a"] :=
  ⟨rfl, claim_C5_into_inner_items.2.2.2 (Item.Ident "a") rfl⟩

/-- Claim C6: on any non-`List` input, `into_inner_list_items` and
`into_inner_list_single_items` fail with the variant-mismatch error whose
rendered message contains the actual variant name (the message is the fixed
prefix followed by `variant_name x` followed by the rendered payload);
likewise `as_inner_items` on any variant other than `Terms` / `Items` /
`Query`. All three only inspect the value. -/
theorem claim_C6_type_mismatch_reporting :
    (∀ x : Item, is_list x = false →
      into_inner_list_items x =
        Except.error ("Expected a list, got " ++ (variant_name x ++ debug_item_payload x)) ∧
      into_inner_list_single_items x =
        Except.error ("Expected a list, got " ++ (variant_name x ++ debug_item_payload x))) ∧
    (∀ x : Item, is_inner_container x = false →
      as_inner_items x =
        Except.error ("Expected container type; got " ++ (variant_name x ++ debug_item_payload x))) := by
  constructor
  · intro x h
    cases x <;>
      simp_all [is_list, into_inner_list_items, into_inner_list_single_items, debug_item]
  · intro x h
    cases x <;> simp_all [is_inner_container, as_inner_items, debug_item]

/-- Witness for C6: the rendered messages at `Ident "a"`, as literal text. -/
theorem claim_C6_witness :
    is_list (Item.Ident "a") = false ∧
    into_inner_list_items (Item.Ident "a") =
      Except.error "Expected a list, got Ident(\"a\")" ∧
    into_inner_list_single_items (Item.Ident "a") =
      Except.error "Expected a list, got Ident(\"a\")" ∧
    is_inner_container (Item.Ident "a") = false ∧
    as_inner_items (Item.Ident "a") =
      Except.error "Expected container type; got Ident(\"a\")" := by
  have h1 := claim_C6_type_mismatch_reporting.1 (Item.Ident "a") rfl
  have h2 := claim_C6_type_mismatch_reporting.2 (Item.Ident "a") rfl
  have hs : variant_name (Item.Ident "a") ++ debug_item_payload (Item.Ident "a") =
      "Ident(\"a\")" := by
    simp [variant_name, debug_item_payload, debug_str, rust_escape_char]
    decide
  rw [hs] at h1 h2
  exact ⟨rfl, h1.1, h1.2, rfl, h2⟩

end PRQL

namespace PRQL

/-- Claim C7: `into_list_of_items` gives each element its own one-element
`ListItem`, and `into_inner_list_single_items` round-trips that `List` (and
a `coerce_to_list`-wrapped scalar) back to the original sequence. -/
theorem claim_C7_list_round_trip :
    (∀ xs : List Item,
      into_list_of_items xs = Item.List (xs.map (fun x => ListItem.mk [x]))) ∧
    (∀ xs : List Item,
      into_inner_list_single_items (into_list_of_items xs) = Except.ok xs) ∧
    (∀ x : Item, is_list x = false →
      into_inner_list_single_items (coerce_to_list x) = Except.ok [x]) := by
  refine ⟨fun xs => rfl, ?_, ?_⟩
  · intro xs
    induction xs with
    | nil =>
      simp [into_list_of_items, into_inner_list_single_items, list_items_into_only]
    | cons x rest ih =>
      simp only [into_list_of_items, into_inner_list_single_items] at ih ⊢
      simp [list_items_into_only, ListItem.into_inner, into_only, except_bind_ok,
        except_pure_eq, List.map_cons, ih]
  · intro x h
    have hx : coerce_to_list x = Item.List [ListItem.mk [x]] := by
      cases x <;> simp_all [is_list, coerce_to_list]
    rw [hx]
    simp [into_inner_list_single_items, list_items_into_only, ListItem.into_inner,
      into_only, except_bind_ok, except_pure_eq]

/-- Witness for C7 at a concrete scalar. -/
theorem claim_C7_witness :
    is_list (Item.Ident "a") = false ∧
    into_inner_list_single_items (coerce_to_list (Item.Ident "a")) =
      Except.ok [Item.Ident "a"] :=
  ⟨rfl, claim_C7_list_round_trip.2.2 (Item.Ident "a") rfl⟩

/-- Claim C8: `coerce_to_terms` and `coerce_to_list` are idempotent, are the
identity on the target variant, and otherwise wrap the value as a one-element
container; both are total. -/
theorem claim_C8_coercion_idempotent :
    (∀ x : Item, coerce_to_terms (coerce_to_terms x) = coerce_to_terms x) ∧
    (∀ x : Item, coerce_to_list (coerce_to_list x) = coerce_to_list x) ∧
    (∀ xs : List Item, coerce_to_terms (Item.Terms xs) = Item.Terms xs) ∧
    (∀ x : Item, is_terms x = false → coerce_to_terms x = Item.Terms [x]) ∧
    (∀ lis : List ListItem, coerce_to_list (Item.List lis) = Item.List lis) ∧
    (∀ x : Item, is_list x = false →
      coerce_to_list x = Item.List [ListItem.mk [x]]) := by
  refine ⟨?_, ?_, fun xs => rfl, ?_, fun lis => rfl, ?_⟩
  · intro x; cases x <;> simp [coerce_to_terms]
  · intro x; cases x <;> simp [coerce_to_list]
  · intro x h; cases x <;> simp_all [is_terms, coerce_to_terms]
  · intro x h; cases x <;> simp_all [is_list, coerce_to_list]

/-- Witness for C8 at a concrete scalar. -/
theorem claim_C8_witness :
    (is_terms (Item.Ident "a") = false ∧
      coerce_to_terms (Item.Ident "a") = Item.Terms [Item.Ident "a"]) ∧
    (is_list (Item.Ident "a") = false ∧
      coerce_to_list (Item.Ident "a") = Item.List [ListItem.mk [Item.Ident "a"]]) :=
  ⟨⟨rfl, claim_C8_coercion_idempotent.2.2.2.1 (Item.Ident "a") rfl⟩,
   ⟨rfl, claim_C8_coercion_idempotent.2.2.2.2.2 (Item.Ident "a") rfl⟩⟩

/-- Claim C9: every `Transformation` reports its canonical lowercase name,
and a `Func` reports the name field of the contained call. -/
theorem claim_C9_transformation_names :
    (∀ i, Transformation.name (Transformation.From i) = "from") ∧
    (∀ xs, Transformation.name (Transformation.Select xs) = "select") ∧
    (∀ f, Transformation.name (Transformation.Filter f) = "filter") ∧
    (∀ a, Transformation.name (Transformation.Derive a) = "derive") ∧
    (∀ b c a, Transformation.name (Transformation.Aggregate b c a) = "aggregate") ∧
    (∀ xs, Transformation.name (Transformation.Sort xs) = "sort") ∧
    (∀ n, Transformation.name (Transformation.Take n) = "take") ∧
    (∀ xs, Transformation.name (Transformation.Join xs) = "join") ∧
    (∀ fc, Transformation.name (Transformation.Func fc) = FuncCall.name fc) :=
  ⟨fun _ => rfl, fun _ => rfl, fun _ => rfl, fun _ => rfl, fun _ _ _ => rfl,
   fun _ => rfl, fun _ => rfl, fun _ => rfl, fun _ => rfl⟩

/-- Claim C10: the `Unnest` fold is total — it returns `Except.ok` on every
tree, with exactly the value `into_unnested` unwraps to, so the `unwrap` in
the source never panics. -/
theorem claim_C10_fold_total :
    ∀ i : Item, Unnest.fold_item i = Except.ok (into_unnested i) := by
  intro i
  rw [into_unnested_eq]
  exact fold_ok_item i

end PRQL
